import Mathlib

/-!
Shallow embedding of the bills API server (`server/index.js`).

The server is a dependency-free Node HTTP service over a single in-memory
store (bills, per-month payment marks, push tokens).  Handlers are embedded
as pure Lean functions from the store (plus the parsed request body) to a
response together with the successor store.  JavaScript's dynamically typed
request-body fields are modelled by `JsVal`, covering the primitive JSON
values (`undefined` for an absent field, `null`, booleans, finite numbers,
strings); JS `NaN` arising from numeric coercion is modelled by `none` in
`Option ℚ`.  JS objects are modelled as association lists keyed by strings
(insertion order, unique keys) holding the objects' own properties; the
prototype-chain fallback of real ECMAScript property reads, which makes
keys such as `"constructor"` read as truthy on an empty map, is modelled
separately by `protoRead` and surfaces as code-bug artifacts for the paid
toggle.  The host calendar arithmetic of `new Date(year, month, day)` is
embedded by `makeDay` following the ECMAScript `MakeDay` specification
(proleptic Gregorian calendar, `ToIntegerOrInfinity` truncation of the day
argument, day-of-month overflow rolling into later months, no clamping).
-/

/-- Primitive JSON/JS values as they appear in parsed request bodies.
`undef` stands for an absent field.  JSON numbers are finite, so `num`
carries a rational; `NaN` never occurs as a stored `JsVal`. -/
inductive JsVal where
  | undef
  | null
  | bool (b : Bool)
  | num (q : ℚ)
  | str (s : String)
  deriving Repr, DecidableEq

/-- JS truthiness for the modelled primitive values: `undefined`, `null`,
`false`, `0` and `""` are falsy, everything else is truthy. -/
def jsTruthy : JsVal → Bool
  | .undef => false
  | .null => false
  | .bool b => b
  | .num q => decide (q ≠ 0)
  | .str s => decide (s ≠ "")

/-- JS `a || b`: `b` when `a` is falsy, else `a`. -/
def jsOr (a b : JsVal) : JsVal :=
  if jsTruthy a then a else b

/-- Whitespace characters stripped by `String.prototype.trim` (the common
ASCII whitespace plus NBSP and the BOM; other Unicode space separators are
outside the modelled alphabet). -/
def jsIsWhitespace (c : Char) : Bool :=
  c = ' ' || c = '\t' || c = '\n' || c = '\r' ||
  c = '\x0b' || c = '\x0c' || c = ' ' || c = '﻿'

/-- Strip leading and trailing whitespace from a character list. -/
def trimChars (l : List Char) : List Char :=
  ((l.dropWhile jsIsWhitespace).reverse.dropWhile jsIsWhitespace).reverse

/-- JS `String.prototype.trim`. -/
def jsTrim (s : String) : String :=
  String.mk (trimChars s.data)

/-- Digit test for the decimal string-to-number grammar. -/
def isDecDigit (c : Char) : Bool :=
  '0' ≤ c && c ≤ '9'

/-- Value of a digit string read left to right. -/
def digitsToNat (l : List Char) : Nat :=
  l.foldl (fun a c => a * 10 + (c.toNat - 48)) 0

/-- Split a character list at the first character satisfying `p`; the
separator itself is dropped. -/
def splitFirst (p : Char → Bool) (l : List Char) : List Char × Option (List Char) :=
  match l.span (fun c => !p c) with
  | (a, []) => (a, none)
  | (a, _ :: rest) => (a, some rest)

/-- Parse an optionally signed nonempty digit run (the exponent part of a
numeric literal). -/
def parseSignedInt (l : List Char) : Option Int :=
  match l with
  | '+' :: r => if r ≠ [] ∧ r.all isDecDigit then some (digitsToNat r) else none
  | '-' :: r => if r ≠ [] ∧ r.all isDecDigit then some (-(digitsToNat r : Int)) else none
  | r => if r ≠ [] ∧ r.all isDecDigit then some (digitsToNat r) else none

/-- Parse an unsigned decimal literal `digits [. digits] [e digits]`,
requiring at least one digit in the integer or fraction part. -/
def parseUnsignedDec (l : List Char) : Option ℚ :=
  let (mant, expPart) := splitFirst (fun c => c = 'e' || c = 'E') l
  let (ip, fpOpt) := splitFirst (fun c => c = '.') mant
  let fp := fpOpt.getD []
  if ip.all isDecDigit ∧ fp.all isDecDigit ∧ (ip ≠ [] ∨ fp ≠ []) then
    match expPart with
    | none =>
        some ((digitsToNat ip : ℚ) + (digitsToNat fp : ℚ) / (10 : ℚ) ^ fp.length)
    | some e =>
        match parseSignedInt e with
        | none => none
        | some ev =>
            some (((digitsToNat ip : ℚ) + (digitsToNat fp : ℚ) / (10 : ℚ) ^ fp.length)
              * (10 : ℚ) ^ ev)
  else none

/-- Parse a decimal literal with an optional leading sign. -/
def parseSignedDec (l : List Char) : Option ℚ :=
  match l with
  | '+' :: r => parseUnsignedDec r
  | '-' :: r => (parseUnsignedDec r).map Neg.neg
  | r => parseUnsignedDec r

/-- ECMAScript `StringToNumber` restricted to decimal literals (the hex,
octal, binary and `Infinity` forms never arise in this development): trim
whitespace, map the empty string to `0`, otherwise parse a signed decimal
literal; `none` models `NaN`. -/
def strToNumber (s : String) : Option ℚ :=
  let t := jsTrim s
  if t = "" then some 0 else parseSignedDec t.data

/-- ECMAScript `ToNumber` on the modelled primitive values; `none` models
`NaN` (`Number(undefined)` and non-numeric strings). -/
def toNumber : JsVal → Option ℚ
  | .undef => none
  | .null => some 0
  | .bool b => some (if b then 1 else 0)
  | .num q => some q
  | .str s => strToNumber s

/-- JS `String(v)` on the modelled primitive values.  Number rendering is
exact for integral values, which are the only numeric values converted to
strings in this development. -/
def jsToString : JsVal → String
  | .undef => "undefined"
  | .null => "null"
  | .bool true => "true"
  | .bool false => "false"
  | .num q => if q.den = 1 then toString q.num else toString q
  | .str s => s

/-- `(v).trim()`: defined on strings, a `TypeError` (modelled `none`) on any
other value. -/
def jsTrimVal : JsVal → Option String
  | .str s => some (jsTrim s)
  | _ => none

/-- Own-property lookup on a plain-object map with (unique,
insertion-ordered) string keys.  This deliberately models only the object's
own entries; a real JS read `obj[k]` additionally consults the prototype
chain (e.g. `obj["constructor"]` finds `Object.prototype.constructor`) —
that fallback is modelled separately by `protoRead`. -/
def lookupA {β : Type} (l : List (String × β)) (k : String) : Option β :=
  match l.find? (fun p => p.1 = k) with
  | some p => some p.2
  | none => none

/-- Own-entry update for `obj[k] = v`: replace the value in place when the
key is an own key, append otherwise.  A real JS write via the key
`"__proto__"` instead goes through the `Object.prototype` setter and
pollutes every object's lookups; that divergence is not modelled here and
is recorded by the paid-toggle code-bug artifacts. -/
def setA {β : Type} (l : List (String × β)) (k : String) (v : β) : List (String × β) :=
  match l with
  | [] => [(k, v)]
  | (k', v') :: rest => if k' = k then (k, v) :: rest else (k', v') :: setA rest k v

/-- Association-list deletion, modelling JS `delete obj[k]` (a no-op when
the key is absent). -/
def delA {β : Type} (l : List (String × β)) (k : String) : List (String × β) :=
  l.filter (fun p => p.1 ≠ k)

/-- A stored bill record (`newBill` in `POST /api/bills`).  `dueDay` and
`amount` hold the results of `Number(...)` coercion; `amount` is `none`
when that coercion produced `NaN`. -/
structure Bill where
  id : String
  name : String
  dueDay : ℚ
  amount : Option ℚ
  notes : String
  deriving Repr, DecidableEq

/-- A bill annotated with the paid flag for a given month
(`{...bill, isPaid}` in `withPaymentStatus`). -/
structure ProjBill extends Bill where
  isPaid : Bool
  deriving Repr, DecidableEq

/-- A push-token registration entry `{token, platform}`. -/
structure PushEntry where
  token : JsVal
  platform : JsVal
  deriving Repr, DecidableEq

/-- Per-month payment marks: bill id → stored boolean (presence of the key
with value `true` is how the code marks a bill paid). -/
abbrev PayMap := List (String × Bool)

/-- The aggregate store persisted as `data/bills.json`: bills in insertion
order, month key → payment marks, and push-token registrations. -/
structure Store where
  bills : List Bill
  payments : List (String × PayMap)
  pushTokens : List PushEntry
  deriving Repr, DecidableEq

/-- The seed store written by `ensureStoreFile` when no store file exists. -/
def seedStore : Store :=
  { bills := [], payments := [], pushTokens := [] }

/-- `Number(bill.amount || 0)`: `NaN` and `0` are falsy, so a `NaN` amount
coerces to `0` and any other number passes through. -/
def amountNum (b : Bill) : ℚ :=
  match b.amount with
  | none => 0
  | some q => q

/-- `withPaymentStatus(month)`: annotate every bill with
`Boolean(paid[bill.id])` where `paid = store.payments[month] || {}`, with
both property reads taken as own-key lookups (the prototype-chain fallback
of the real read is modelled by `withPaymentStatusJs`). -/
def withPaymentStatus (s : Store) (month : String) : List ProjBill :=
  let paid := (lookupA s.payments month).getD []
  s.bills.map (fun b => { b with isPaid := (lookupA paid b.id).getD false })

/-- The `{total, paid, remaining}` aggregate returned by `totalsForMonth`. -/
structure Totals where
  total : ℚ
  paid : ℚ
  remaining : ℚ
  deriving Repr, DecidableEq

/-- `totalsForMonth(month)`: reduce the projected bills to the sum of all
amounts, the sum of paid amounts, and their difference. -/
def totalsForMonth (s : Store) (month : String) : Totals :=
  let bills := withPaymentStatus s month
  let total := bills.foldl (fun sum b => sum + amountNum b.toBill) 0
  let paid := bills.foldl (fun sum b => sum + if b.isPaid then amountNum b.toBill else 0) 0
  { total := total, paid := paid, remaining := total - paid }

/-- Gregorian leap-year rule, as the host calendar uses it. -/
def isLeap (y : Int) : Bool :=
  (y % 4 = 0 && y % 100 ≠ 0) || y % 400 = 0

/-- Length of the 0-based month `m` of a (non-)leap year. -/
def monthLen (leap : Bool) (m : Nat) : Int :=
  match m with
  | 1 => if leap then 29 else 28
  | 3 | 5 | 8 | 10 => 30
  | _ => 31

/-- Days from the start of the year to the first of 0-based month `m`. -/
def daysBeforeMonth (leap : Bool) (m : Nat) : Int :=
  ((List.range m).map (monthLen leap)).sum

/-- Days from 0001-01-01 to `y`-01-01 in the proleptic Gregorian calendar. -/
def daysToYear (y : Int) : Int :=
  365 * (y - 1) + Int.fdiv (y - 1) 4 - Int.fdiv (y - 1) 100 + Int.fdiv (y - 1) 400

/-- Epoch day (days since 1970-01-01) of the first of 0-based month `m` of
year `y`; `719162` is `daysToYear 1970`. -/
def epochDay (y : Int) (m : Nat) : Int :=
  daysToYear y + daysBeforeMonth (isLeap y) m - 719162

/-- `ToIntegerOrInfinity` on a finite value: truncation toward zero (the
sign of the argument with the floor of its magnitude). -/
def truncRat (q : ℚ) : Int :=
  if q < 0 then -(Int.floor (-q)) else Int.floor q

/-- ECMAScript `MakeDay(y, m, d)` as used by `new Date(y, m, d)`: normalise
the 0-based month into `[0, 12)` carrying into the year, truncate the date
argument toward zero (`dt = ToIntegerOrInfinity(date)`), then add `dt - 1`
days to the first of that month — day-of-month overflow rolls into later
months, with no clamping to the month's length. -/
def makeDay (y m : Int) (d : ℚ) : ℚ :=
  let ym := y + Int.fdiv m 12
  let mn := (m - 12 * Int.fdiv m 12).toNat
  (epochDay ym mn : ℚ) + (truncRat d : ℚ) - 1

/-- Milliseconds per day, the divisor `1000 * 60 * 60 * 24`. -/
def msPerDay : ℚ := 1000 * 60 * 60 * 24

/-- The reference instant of the upcoming filter: the components
`getFullYear()` / `getMonth()` of `now` together with its time value in
milliseconds (local-clock milliseconds; the due date is built from the same
local components, so differences agree with the source's `due - now`). -/
structure RefDate where
  year : Int
  month : Int
  epochMs : ℚ
  deriving Repr, DecidableEq

/-- Time value of `new Date(now.getFullYear(), now.getMonth(), d)`. -/
def dueMs (now : RefDate) (d : ℚ) : ℚ :=
  makeDay now.year now.month d * msPerDay

/-- The upcoming filter of `POST /api/push/send-upcoming`: keep a projected
bill when `diffDays >= 0 && diffDays <= 7 && !bill.isPaid`, where
`diffDays = (due - now) / (1000*60*60*24)` and `due` is
`new Date(now.getFullYear(), now.getMonth(), bill.dueDay)`. -/
def selectUpcoming (bills : List ProjBill) (now : RefDate) : List ProjBill :=
  bills.filter (fun b =>
    let diffDays := (dueMs now b.dueDay - now.epochMs) / (1000 * 60 * 60 * 24)
    decide (0 ≤ diffDays) && decide (diffDays ≤ 7) && !b.isPaid)

/-- Parsed body of `POST /api/bills` (each field `undef` when absent). -/
structure CreateBody where
  id : JsVal
  name : JsVal
  dueDay : JsVal
  amount : JsVal
  notes : JsVal
  deriving Repr, DecidableEq

/-- Outcome of the `POST /api/bills` handler.  `internalError` models the
uncaught `TypeError` of `(id || "").trim()` on a truthy non-string `id`,
which the outer handler turns into a 500 response. -/
inductive CreateResp where
  | badRequest (msg : String)
  | conflict (billId : String)
  | created (b : Bill)
  | internalError
  deriving Repr, DecidableEq

/-- The `POST /api/bills` handler: validate `name` and `dueDay`, compute
`billId = (id || "").trim() || randomUUID()` (the generated UUID passed in
as `genId`), reject a duplicate id with 409, otherwise build and append the
new bill. -/
def createBill (s : Store) (body : CreateBody) (genId : String) : CreateResp × Store :=
  if !jsTruthy body.name then (.badRequest "name is required", s)
  else if body.dueDay = .undef ∨ toNumber body.dueDay = none then
    (.badRequest "dueDay must be a number", s)
  else
    match jsTrimVal (jsOr body.id (.str "")) with
    | none => (.internalError, s)
    | some trimmed =>
      let billId := if trimmed = "" then genId else trimmed
      if s.bills.any (fun b => b.id = billId) then (.conflict billId, s)
      else
        let newBill : Bill :=
          { id := billId
            name := jsToString body.name
            dueDay := (toNumber body.dueDay).getD 0
            amount := toNumber (jsOr body.amount (.num 0))
            notes := if jsTruthy body.notes then jsToString body.notes else "" }
        (.created newBill, { s with bills := s.bills ++ [newBill] })

/-- Remove the first bill with the given id (`findIndex` + `splice`). -/
def removeBill : List Bill → String → List Bill
  | [], _ => []
  | b :: rest, i => if b.id = i then rest else b :: removeBill rest i

/-- The `DELETE /api/bills/:id` handler: 404 (`none`) when no bill has the
id; otherwise remove the bill and delete the id's key from every month's
payment-mark object. -/
def deleteBill (s : Store) (billId : String) : Option Store :=
  if !s.bills.any (fun b => b.id = billId) then none
  else
    some { s with
      bills := removeBill s.bills billId
      payments := s.payments.map (fun p => (p.1, delA p.2 billId)) }

/-- Response body `{id, month, isPaid}` of `POST /api/bills/:id/paid`. -/
structure PaidResp where
  id : String
  month : String
  isPaid : Bool
  deriving Repr, DecidableEq

/-- The `POST /api/bills/:id/paid` handler with the month key already
resolved (`body?.month || startOfMonthKey()`): 404 (`none`) for an unknown
bill id; otherwise ensure `payments[month]` exists, set the mark to `true`
when `body?.isPaid` is truthy and delete it otherwise, and respond with
`Boolean(payments[month][billId])` after the mutation.  All property
operations are modelled as own-property operations, which is faithful for
ordinary keys; for keys inherited from `Object.prototype` (such as a month
of `"__proto__"` or a bill id of `"constructor"`) the real reads and
writes consult the prototype chain — see the code-bug artifacts built on
`protoRead`. -/
def setPaid (s : Store) (billId month : String) (isPaid : JsVal) :
    Option (Store × PaidResp) :=
  if !s.bills.any (fun b => b.id = billId) then none
  else
    let pm := (lookupA s.payments month).getD []
    let pm' := if jsTruthy isPaid then setA pm billId true else delA pm billId
    some ({ s with payments := setA s.payments month pm' },
      { id := billId, month := month, isPaid := (lookupA pm' billId).getD false })

/-- Outcome of `POST /api/push/register`. -/
inductive RegResp where
  | badRequest (msg : String)
  | ok (token : JsVal)
  deriving Repr, DecidableEq

/-- The `POST /api/push/register` handler: 400 on a falsy token; otherwise
append `{token, platform: body?.platform || "unknown"}` unless an entry
with a strictly equal token already exists, and respond `{ok, token}`. -/
def register (s : Store) (token platform : JsVal) : RegResp × Store :=
  if !jsTruthy token then (.badRequest "token is required", s)
  else
    match s.pushTokens.find? (fun e => e.token = token) with
    | some _ => (.ok token, s)
    | none =>
        (.ok token,
          { s with pushTokens :=
              s.pushTokens ++ [{ token := token, platform := jsOr platform (.str "unknown") }] })

/-- What `readFile(STORE_FILE)` followed by `JSON.parse` can yield, with the
I/O and the JSON grammar abstracted: the read fails with an error code, or
returns content that is either malformed JSON or parses to a store. -/
inductive ReadResult where
  | errCode (code : String)
  | malformed
  | wellFormed (s : Store)
  deriving Repr, DecidableEq

/-- `ensureStoreFile` over the abstracted read: a successful parse returns
the store; any failure is caught, rethrown (as its optional `error.code`,
`none` for the codeless `SyntaxError` of `JSON.parse`) unless the code is
`"ENOENT"`, in which case the empty seed store is written and returned.
The second component lists the stores written (the immediate persist). -/
def ensureStoreFile (r : ReadResult) : Except (Option String) (Store × List Store) :=
  match r with
  | .wellFormed s => .ok (s, [])
  | .malformed => .error none
  | .errCode code =>
      if code = "ENOENT" then .ok (seedStore, [seedStore]) else .error (some code)

/-- The stored-bill view of a creation response: the new bill's amount when
a bill was created, `none` on any error response. -/
def amountOfResp : CreateResp → Option (Option ℚ)
  | .created b => some b.amount
  | _ => none

/-- Concrete fixture: a rent bill due on the 1st. -/
def billRent : Bill :=
  { id := "rent", name := "Rent", dueDay := 1, amount := some 1200, notes := "" }

/-- Concrete fixture: a gym bill due on the 15th. -/
def billGym : Bill :=
  { id := "gym", name := "Gym", dueDay := 15, amount := some 40, notes := "" }

/-- Concrete fixture: two bills, both marked paid for 2024-05. -/
def storeTwo : Store :=
  { bills := [billRent, billGym]
    payments := [("2024-05", [("rent", true), ("gym", true)])]
    pushTokens := [] }

/-- Concrete fixture: `storeTwo` after `DELETE /api/bills/rent`. -/
def storeTwoDel : Store :=
  { bills := [billGym]
    payments := [("2024-05", [("gym", true)])]
    pushTokens := [] }

/-- The own property keys of `Object.prototype` (all of them
function-valued, plus the `__proto__` accessor whose getter returns
`Object.prototype` itself), every one of which reads as a truthy value. -/
def objectPrototypeMembers : List String :=
  ["constructor", "hasOwnProperty", "isPrototypeOf", "propertyIsEnumerable",
   "toLocaleString", "toString", "valueOf", "__defineGetter__",
   "__defineSetter__", "__lookupGetter__", "__lookupSetter__", "__proto__"]

/-- `Boolean(obj[k])` on a plain-object payment map under ECMAScript
ordinary property lookup: an own key yields its stored value; otherwise the
read falls back to `Object.prototype`, whose members are all truthy; any
other key reads `undefined`. -/
def protoRead (own : PayMap) (k : String) : Bool :=
  match lookupA own k with
  | some v => v
  | none => decide (k ∈ objectPrototypeMembers)

/-- `withPaymentStatus` with the per-bill read `Boolean(paid[bill.id])`
taken under ordinary (prototype-consulting) property lookup.  The month-key
read stays an own-key lookup, which is faithful for ordinary month keys
such as `"2024-05"`. -/
def withPaymentStatusJs (s : Store) (month : String) : List ProjBill :=
  let paid := (lookupA s.payments month).getD []
  s.bills.map (fun b => { b with isPaid := protoRead paid b.id })

/-- Concrete fixture: a bill whose id collides with an `Object.prototype`
member name (creatable via `POST /api/bills {"id":"constructor",...}`). -/
def billCtor : Bill :=
  { id := "constructor", name := "Ctor", dueDay := 1, amount := some 10, notes := "" }

/-- Concrete fixture: a store containing only `billCtor`, with no marks. -/
def storeCtor : Store :=
  { bills := [billCtor], payments := [], pushTokens := [] }

/-- Concrete fixture: a registered Expo push token. -/
def tokenVal : JsVal := .str "ExponentPushToken[abc]"

/-- Concrete fixture: a store already holding `tokenVal`. -/
def storePush : Store :=
  { bills := [], payments := []
    pushTokens := [{ token := tokenVal, platform := .str "ios" }] }

/-- Concrete fixture: a creation body reusing the existing id `rent`. -/
def bodyDup : CreateBody :=
  { id := .str "rent", name := .str "Rent", dueDay := .num 1,
    amount := .undef, notes := .undef }

/-- Concrete fixture: a creation body whose amount is the non-numeric
string `"abc"`. -/
def bodyNaN : CreateBody :=
  { id := .undef, name := .str "Internet", dueDay := .num 12,
    amount := .str "abc", notes := .undef }

/-- Concrete fixture: the bill stored for `bodyNaN` (amount `NaN`). -/
def billNaN : Bill :=
  { id := "gen-1", name := "Internet", dueDay := 12, amount := none, notes := "" }

/-- Concrete fixture: a creation body with no amount field. -/
def bodyNoAmt : CreateBody :=
  { id := .undef, name := .str "Water", dueDay := .num 3,
    amount := .undef, notes := .undef }

/-- Concrete fixture: a creation body whose id carries surrounding
whitespace. -/
def bodyPadded : CreateBody :=
  { id := .str "  rent  ", name := .str "Rent", dueDay := .num 1,
    amount := .undef, notes := .undef }

/-- Concrete fixture: the bill stored for `bodyPadded` (id trimmed). -/
def billPadded : Bill :=
  { id := "rent", name := "Rent", dueDay := 1, amount := some 0, notes := "" }

/-- Concrete fixture: a projected bill already paid, due within the window. -/
def projPaid : ProjBill :=
  { billRent with isPaid := true }

/-- Concrete fixture: a reference instant in May 2024. -/
def refMay : RefDate :=
  { year := 2024, month := 4, epochMs := 19844 * msPerDay }

lemma foldl_add_eq {α : Type} (f : α → ℚ) (l : List α) (a : ℚ) :
    l.foldl (fun sum b => sum + f b) a = a + (l.map f).sum := by
  induction l generalizing a with
  | nil => simp
  | cons x t ih => simp [ih, add_assoc]

lemma lookupA_setA_self {β : Type} (l : List (String × β)) (k : String) (v : β) :
    lookupA (setA l k v) k = some v := by
  induction l with
  | nil => simp [setA, lookupA]
  | cons p t ih =>
    by_cases h : p.1 = k
    · simp [setA, h, lookupA, List.find?_cons]
    · simpa [setA, h, lookupA, List.find?_cons] using ih

lemma lookupA_setA_ne {β : Type} (l : List (String × β)) (k k' : String) (v : β)
    (h : k' ≠ k) : lookupA (setA l k v) k' = lookupA l k' := by
  induction l with
  | nil => simp [setA, lookupA, List.find?_cons, Ne.symm h]
  | cons p t ih =>
    obtain ⟨a, w⟩ := p
    by_cases hp : a = k
    · subst hp
      simp [setA, lookupA, List.find?_cons, Ne.symm h]
    · by_cases hp' : a = k'
      · subst hp'
        simp [setA, lookupA, List.find?_cons, hp]
      · simpa [setA, hp, lookupA, List.find?_cons, hp'] using ih

lemma lookupA_delA_self {β : Type} (l : List (String × β)) (k : String) :
    lookupA (delA l k) k = none := by
  rw [lookupA]
  have : (delA l k).find? (fun p => p.1 = k) = none := by
    rw [List.find?_eq_none]
    intro x hx
    have := (List.mem_filter.mp hx).2
    simpa using this
  simp [this]

lemma lookupA_delA_ne {β : Type} (l : List (String × β)) (k k' : String)
    (h : k' ≠ k) : lookupA (delA l k) k' = lookupA l k' := by
  induction l with
  | nil => simp [delA, lookupA]
  | cons p t ih =>
    obtain ⟨a, w⟩ := p
    by_cases hp : a = k
    · subst hp
      simpa [delA, lookupA, List.find?_cons, Ne.symm h] using ih
    · by_cases hp' : a = k'
      · subst hp'
        simp [delA, lookupA, List.find?_cons, hp]
      · simpa [delA, lookupA, List.find?_cons, hp, hp'] using ih

lemma dropWhile_idem {α : Type} (p : α → Bool) (l : List α) :
    (l.dropWhile p).dropWhile p = l.dropWhile p := by
  induction l with
  | nil => rfl
  | cons a t ih =>
    by_cases h : p a
    · simpa [List.dropWhile_cons, h] using ih
    · simp [List.dropWhile_cons, h]

lemma dropWhile_cons_eq_self {α : Type} (p : α → Bool) (a : α) (x : List α) :
    (a :: x).dropWhile p = a :: x ↔ p a = false := by
  cases h : p a with
  | false => simp [List.dropWhile_cons, h]
  | true =>
    simp only [List.dropWhile_cons, h, if_true]
    refine ⟨fun heq => ?_, fun hf => absurd hf (by simp)⟩
    exfalso
    have hle : (x.dropWhile p).length ≤ x.length :=
      (List.dropWhile_suffix p).length_le
    rw [heq] at hle
    simp at hle

lemma dropWhile_eq_self_of_prefix {α : Type} (p : α → Bool) {r l : List α}
    (hl : l.dropWhile p = l) (hr : r <+: l) : r.dropWhile p = r := by
  cases r with
  | nil => rfl
  | cons a t =>
    obtain ⟨u, hu⟩ := hr
    have hl' : l = a :: (t ++ u) := by rw [← hu]; rfl
    rw [hl'] at hl
    have hpa : p a = false := (dropWhile_cons_eq_self p a (t ++ u)).mp hl
    simp [List.dropWhile_cons, hpa]

lemma trimChars_idem (l : List Char) : trimChars (trimChars l) = trimChars l := by
  have hbase : (l.dropWhile jsIsWhitespace).dropWhile jsIsWhitespace
      = l.dropWhile jsIsWhitespace := dropWhile_idem _ l
  have hpref : trimChars l <+: l.dropWhile jsIsWhitespace := by
    have h := List.reverse_prefix.mpr
      (List.dropWhile_suffix (l := (l.dropWhile jsIsWhitespace).reverse) jsIsWhitespace)
    rw [List.reverse_reverse] at h
    exact h
  have h1 : (trimChars l).dropWhile jsIsWhitespace = trimChars l :=
    dropWhile_eq_self_of_prefix _ hbase hpref
  have h2 : (trimChars l).reverse
      = ((l.dropWhile jsIsWhitespace).reverse).dropWhile jsIsWhitespace := by
    rw [trimChars, List.reverse_reverse]
  calc trimChars (trimChars l)
      = (((trimChars l).dropWhile jsIsWhitespace).reverse.dropWhile
          jsIsWhitespace).reverse := rfl
    _ = ((trimChars l).reverse.dropWhile jsIsWhitespace).reverse := by rw [h1]
    _ = ((trimChars l).reverse).reverse := by rw [h2, dropWhile_idem, ← h2]
    _ = trimChars l := List.reverse_reverse _

lemma jsTrim_idem (s : String) : jsTrim (jsTrim s) = jsTrim s := by
  rw [jsTrim, jsTrim]
  show String.mk (trimChars (String.mk (trimChars s.data)).data) = _
  rw [show (String.mk (trimChars s.data)).data = trimChars s.data from rfl,
    trimChars_idem]

/-- C4: for every store and month key, `totals.remaining` equals
`totals.total - totals.paid`, and whenever every bill's amount is
non-negative, `totals.paid ≤ totals.total`. -/
theorem totalsForMonth_remaining_paid_le (s : Store) (month : String) :
    (totalsForMonth s month).remaining =
      (totalsForMonth s month).total - (totalsForMonth s month).paid ∧
    ((∀ b ∈ s.bills, 0 ≤ amountNum b) →
      (totalsForMonth s month).paid ≤ (totalsForMonth s month).total) := by
  constructor
  · rfl
  · intro h
    show (withPaymentStatus s month).foldl
        (fun sum b => sum + if b.isPaid then amountNum b.toBill else 0) 0 ≤
      (withPaymentStatus s month).foldl
        (fun sum b => sum + amountNum b.toBill) 0
    rw [foldl_add_eq, foldl_add_eq, zero_add, zero_add]
    apply List.sum_le_sum
    intro pb hpb
    have hmem : pb.toBill ∈ s.bills := by
      simp only [withPaymentStatus, List.mem_map] at hpb
      obtain ⟨b, hb, rfl⟩ := hpb
      exact hb
    have h0 : 0 ≤ amountNum pb.toBill := h _ hmem
    by_cases hp : pb.isPaid <;> simp [hp, h0]

/-- Witness for C4 at a concrete store and month. -/
theorem totalsForMonth_remaining_paid_le_witness :
    (totalsForMonth storeTwo "2024-05").paid ≤ (totalsForMonth storeTwo "2024-05").total :=
  (totalsForMonth_remaining_paid_le storeTwo "2024-05").2 (by decide)

/-- C8: with no store file, `ensureStoreFile` returns the empty store and
persists it immediately; with an existing but unparsable file, the error
propagates (no silent fallback). -/
theorem ensureStoreFile_spec :
    ensureStoreFile (.errCode "ENOENT") = .ok (seedStore, [seedStore]) ∧
    seedStore.bills = [] ∧ seedStore.payments = [] ∧ seedStore.pushTokens = [] ∧
    ensureStoreFile .malformed = .error none := by
  refine ⟨?_, rfl, rfl, rfl, rfl⟩
  simp [ensureStoreFile]

/-- C2: after a successful `DELETE /api/bills/:id`, no month in the
payments mapping contains a payment mark for the deleted id. -/
theorem deleteBill_cascade (s : Store) (billId : String) (s' : Store)
    (h : deleteBill s billId = some s') :
    ∀ mp ∈ s'.payments, ∀ p ∈ mp.2, p.1 ≠ billId := by
  rw [deleteBill] at h
  split at h
  · exact absurd h (by simp)
  · rw [Option.some_inj] at h
    subst h
    intro mp hmp p hp
    simp only [List.mem_map] at hmp
    obtain ⟨q, hq, rfl⟩ := hmp
    have := (List.mem_filter.mp hp).2
    simpa using this

/-- Witness for C2: deleting `rent` from a store where both bills were
marked paid leaves only `gym` marks. -/
theorem deleteBill_cascade_witness : ("gym", true).1 ≠ "rent" :=
  deleteBill_cascade storeTwo "rent" storeTwoDel (by decide)
    ("2024-05", [("gym", true)]) (by decide) ("gym", true) (by decide)

/-- C1: the upcoming filter selects a bill iff it is unpaid and its due
date, built as `(year(ref), month(ref), dueDay)` without clamping, lies
within `[0, 7]` days of the reference instant; in particular no paid bill
is ever selected. -/
theorem selectUpcoming_spec (bills : List ProjBill) (now : RefDate) (b : ProjBill) :
    (b ∈ selectUpcoming bills now ↔
      b ∈ bills ∧ b.isPaid = false ∧
        0 ≤ dueMs now b.dueDay - now.epochMs ∧
        dueMs now b.dueDay - now.epochMs ≤ 7 * msPerDay) ∧
    (b.isPaid = true → b ∉ selectUpcoming bills now) := by
  have hpos : (0:ℚ) < 1000 * 60 * 60 * 24 := by norm_num
  have key1 : ∀ x : ℚ, 0 ≤ x / (1000 * 60 * 60 * 24) ↔ 0 ≤ x := by
    intro x
    rw [le_div_iff₀ hpos, zero_mul]
  have key2 : ∀ x : ℚ, x / (1000 * 60 * 60 * 24) ≤ 7 ↔ x ≤ 7 * msPerDay := by
    intro x
    rw [div_le_iff₀ hpos, msPerDay]
  have hiff : b ∈ selectUpcoming bills now ↔
      b ∈ bills ∧ b.isPaid = false ∧
        0 ≤ dueMs now b.dueDay - now.epochMs ∧
        dueMs now b.dueDay - now.epochMs ≤ 7 * msPerDay := by
    rw [selectUpcoming, List.mem_filter]
    simp only [Bool.and_eq_true, decide_eq_true_eq, Bool.not_eq_true']
    constructor
    · rintro ⟨hb, ⟨h1, h2⟩, h3⟩
      exact ⟨hb, h3, (key1 _).mp h1, (key2 _).mp h2⟩
    · rintro ⟨hb, h3, h1, h2⟩
      exact ⟨hb, ⟨(key1 _).mpr h1, (key2 _).mpr h2⟩, h3⟩
  refine ⟨hiff, fun hp hmem => ?_⟩
  have := (hiff.mp hmem).2.1
  rw [hp] at this
  cases this

/-- Witness for C1: a paid bill due on day 1 of the reference month is not
selected. -/
theorem selectUpcoming_spec_witness : projPaid ∉ selectUpcoming [projPaid] refMay :=
  (selectUpcoming_spec [projPaid] refMay projPaid).2 rfl

/-- C7: re-registering a token already stored is a no-op that still
succeeds, and registration preserves "at most one entry per literal token
value". -/
theorem register_idempotent (s : Store) (token platform : JsVal) :
    (jsTruthy token = true → (∃ e ∈ s.pushTokens, e.token = token) →
      register s token platform = (.ok token, s)) ∧
    (∀ t : JsVal,
      s.pushTokens.countP (fun e => e.token = t) ≤ 1 →
      ((register s token platform).2).pushTokens.countP (fun e => e.token = t) ≤ 1) := by
  constructor
  · intro ht hex
    rw [register, if_neg (by simp [ht])]
    have hs : (s.pushTokens.find? (fun e => e.token = token)).isSome = true := by
      rw [List.find?_isSome]
      obtain ⟨e, he, hte⟩ := hex
      exact ⟨e, he, by simp [hte]⟩
    obtain ⟨e', he'⟩ := Option.isSome_iff_exists.mp hs
    rw [he']
  · intro t h
    rw [register]
    by_cases ht : jsTruthy token
    · rw [if_neg (by simp [ht])]
      cases hf : s.pushTokens.find? (fun e => e.token = token) with
      | some e => simpa using h
      | none =>
        by_cases htt : token = t
        · subst htt
          have h0 : s.pushTokens.countP (fun e => decide (e.token = token)) = 0 := by
            rw [List.countP_eq_zero]
            intro a ha
            have := List.find?_eq_none.mp hf a ha
            simpa using this
          simp [List.countP_append, h0]
        · have h1 : List.countP (fun e => decide (e.token = t))
              [(⟨token, jsOr platform (.str "unknown")⟩ : PushEntry)] = 0 := by
            simp [htt]
          simpa [List.countP_append, h1] using h
    · rw [if_pos (by simp [ht])]
      simpa using h

/-- Witness for C7: registering the already-present token leaves the store
unchanged and responds ok. -/
theorem register_idempotent_witness :
    register storePush tokenVal (.str "ios") = (.ok tokenVal, storePush) :=
  (register_idempotent storePush tokenVal (.str "ios")).1 (by decide) (by decide)

/-- C3: a validation-passing creation request whose computed id duplicates
an existing bill's id fails with a 409 conflict and leaves the whole store
unchanged. -/
theorem createBill_conflict (s : Store) (body : CreateBody) (genId trimmed : String)
    (hname : jsTruthy body.name = true)
    (hdue : ¬(body.dueDay = JsVal.undef ∨ toNumber body.dueDay = none))
    (hid : jsTrimVal (jsOr body.id (.str "")) = some trimmed)
    (hdup : s.bills.any (fun b => b.id = if trimmed = "" then genId else trimmed) = true) :
    createBill s body genId =
      (.conflict (if trimmed = "" then genId else trimmed), s) := by
  rw [createBill, if_neg (by simp [hname]), if_neg hdue, hid]
  show (if s.bills.any (fun b => b.id = if trimmed = "" then genId else trimmed) = true
      then _ else _) = _
  rw [if_pos hdup]

/-- Witness for C3: re-creating `rent` against `storeTwo` yields a conflict
and the same store. -/
theorem createBill_conflict_witness :
    createBill storeTwo bodyDup "gen-2" = (.conflict "rent", storeTwo) := by
  have h := createBill_conflict storeTwo bodyDup "gen-2" "rent"
    (by decide) (by decide) (by decide) (by decide)
  simpa using h

/-- C6 counterexample: a truthy non-numeric amount (`"abc"`) passes
validation and is stored as `NaN`, not as `0`, refuting "non-numeric input
is coerced to 0". -/
theorem createBill_nan_counterexample :
    (createBill seedStore bodyNaN "gen-1").1 = .created billNaN ∧
    billNaN.amount ≠ some 0 := by
  exact ⟨by decide, by decide⟩

/-- C6 (amended): the stored amount is `0` whenever the amount field is
absent or otherwise falsy (`undefined`, `null`, `false`, `0`, `""`); a
truthy non-numeric amount is instead stored as `NaN`. -/
theorem createBill_amount_falsy_zero (s : Store) (body : CreateBody)
    (genId trimmed : String)
    (hname : jsTruthy body.name = true)
    (hdue : ¬(body.dueDay = JsVal.undef ∨ toNumber body.dueDay = none))
    (hid : jsTrimVal (jsOr body.id (.str "")) = some trimmed)
    (hnodup : s.bills.any (fun b => b.id = if trimmed = "" then genId else trimmed) = false)
    (hamt : jsTruthy body.amount = false) :
    amountOfResp (createBill s body genId).1 = some (some 0) := by
  rw [createBill, if_neg (by simp [hname]), if_neg hdue]
  simp only [hid]
  rw [if_neg (by simp [hnodup])]
  simp [amountOfResp, jsOr, hamt, toNumber]

/-- Witness for C6 (amended): a body with no amount field stores amount 0. -/
theorem createBill_amount_falsy_zero_witness :
    amountOfResp (createBill seedStore bodyNoAmt "gen-3").1 = some (some 0) :=
  createBill_amount_falsy_zero seedStore bodyNoAmt "gen-3" ""
    (by decide) (by decide) (by decide) (by decide) (by decide)

lemma jsTrim_empty : jsTrim "" = "" := rfl

/-- C10 failing input: on a bill whose id is the `Object.prototype` member
name `constructor`, a falsy `isPaid` performs an own-key delete (a no-op)
but the response value `Boolean(payments[month][billId])`, read under
ordinary prototype-consulting lookup, is `true` — while the claim says
removing a mark responds `isPaid:false` (the truthiness of the request). -/
theorem setPaid_proto_read_bug :
    ((setPaid storeCtor "constructor" "2024-05" (.bool false)).map
        (fun r => protoRead ((lookupA r.1.payments "2024-05").getD []) "constructor"))
      = some true ∧
    jsTruthy (.bool false) = false := by
  exact ⟨by decide, by decide⟩

/-- C5 failing input: after unmarking the `constructor` bill for 2024-05,
the projection of 2024-05 under ordinary prototype-consulting lookup still
shows `isPaid:true` (the inherited `Object.prototype.constructor` is
truthy), so the target month's projection does not reflect the new (falsy)
flag as the claim states. -/
theorem setPaid_projection_proto_bug :
    ((setPaid storeCtor "constructor" "2024-05" (.bool false)).map
        (fun r => withPaymentStatusJs r.1 "2024-05"))
      = some [{ billCtor with isPaid := true }] ∧
    jsTruthy (.bool false) = false := by
  exact ⟨by decide, by decide⟩


/-- C9: when creation succeeds with a UUID-shaped `genId` (non-empty,
already trimmed), a supplied string id that trims to empty is replaced by
the generated id, a non-blank supplied id is stored trimmed, and the
stored id is always a non-empty string with no surrounding whitespace. -/
theorem createBill_id_trimmed (s : Store) (body : CreateBody) (genId : String)
    (b : Bill) (s' : Store)
    (hg1 : genId ≠ "") (hg2 : jsTrim genId = genId)
    (hres : createBill s body genId = (.created b, s')) :
    (∀ t : String, body.id = .str t →
      b.id = if jsTrim t = "" then genId else jsTrim t) ∧
    b.id ≠ "" ∧ jsTrim b.id = b.id := by
  rw [createBill] at hres
  split at hres
  · exact absurd hres (by simp)
  · split at hres
    · exact absurd hres (by simp)
    · rcases hjs : jsTrimVal (jsOr body.id (.str "")) with _ | trimmed
      · rw [hjs] at hres
        exact absurd hres (by simp)
      · simp only [hjs] at hres
        generalize hgen : (if trimmed = "" then genId else trimmed) = billId at hres
        split at hres
        · exact absurd hres (by simp)
        · rw [Prod.mk.injEq] at hres
          obtain ⟨hb, -⟩ := hres
          injection hb with hb
          have hbid : b.id = if trimmed = "" then genId else trimmed := by
            rw [hgen]
            exact (congrArg Bill.id hb).symm
          have htrim : jsTrim trimmed = trimmed := by
            rcases hv : jsOr body.id (.str "") with _ | _ | bb | qq | u <;>
              rw [hv] at hjs <;> simp [jsTrimVal] at hjs
            rw [← hjs, jsTrim_idem]
          refine ⟨?_, ?_, ?_⟩
          · intro t ht
            rw [ht] at hjs
            by_cases hts : t = ""
            · subst hts
              rw [show jsTrimVal (jsOr (.str "") (.str "")) = some "" from by decide]
                at hjs
              rw [Option.some_inj] at hjs
              rw [hbid, ← hjs, jsTrim_empty]
            · have hor : jsOr (.str t) (.str "") = .str t := by
                simp [jsOr, jsTruthy, hts]
              rw [hor] at hjs
              simp only [jsTrimVal, Option.some_inj] at hjs
              rw [hbid, hjs]
          · rw [hbid]
            by_cases htr : trimmed = "" <;> simp [htr, hg1]
          · rw [hbid]
            by_cases htr : trimmed = "" <;> simp [htr, hg2, htrim]

/-- Witness for C9: an id supplied with surrounding whitespace is stored
trimmed. -/
theorem createBill_id_trimmed_witness :
    billPadded.id = if jsTrim "  rent  " = "" then "uuid-1" else jsTrim "  rent  " :=
  (createBill_id_trimmed seedStore bodyPadded "uuid-1" billPadded
      { bills := [billPadded], payments := [], pushTokens := [] }
      (by decide) (by decide) (by decide)).1 "  rent  " rfl
